import Mathlib

/-!
Verification of the agent core of Pi_Sysadmin (src/agent.py): conversation
state management, the confirmation gate for destructive operations, and the
bounded reasoning/tool-dispatch loop, embedded shallowly in Lean.
-/

namespace PiSysadmin

/-- A parameter mapping, as passed to a tool call (values already rendered
as strings, the way the Python code renders them into messages). -/
abbrev Params := List (String × String)

/-- A content block of a reasoning-backend response / assistant turn:
either a text block or a tool-use (operation-request) block carrying a
call identifier, an operation name and a parameter mapping. -/
inductive ABlock where
| text (s : String)
| toolUse (callId : String) (toolName : String) (input : Params)
deriving DecidableEq, Repr

/-- One tool_result block: the call identifier it answers and the
JSON-serialized content string, as built at agent.py lines 185-201. -/
structure ToolResult where
  toolUseId : String
  content : String
deriving DecidableEq, Repr

/-- One entry of `self.messages`: a plain user message, an assistant turn
(the reconstructed response blocks, agent.py lines 146-158), or the
role-user turn carrying the tool_result blocks (agent.py line 204). -/
inductive Msg where
| user (text : String)
| assistant (blocks : List ABlock)
| toolResults (results : List ToolResult)
deriving DecidableEq, Repr

/-- The confirmation callback type: (tool_name, description, tool_input) -> Bool
(agent.py line 56). -/
abbrev Callback := String → String → Params → Bool

/-- The tool executor, an external collaborator: from tool name and input to
the JSON-serialized result content (the composite of
`self.tool_executor.execute` and `json.dumps` at agent.py lines 196-200). -/
abbrev Exec := String → Params → String

/-- The reasoning backend, an external collaborator: from the current message
history to the ordered response content blocks (agent.py lines 133-139). -/
abbrev Backend := List Msg → List ABlock

/-- The agent configuration fields the core reads:
`config.agent.max_context_messages` and `config.agent.confirm_destructive`. -/
structure AgentConfig where
  maxContextMessages : Nat
  confirmDestructive : Bool
deriving DecidableEq, Repr

/-- The mutable state of one Agent instance that the modelled methods touch:
the conversation history `self.messages` and the Proxmox connection flag
(set by `connect`, untouched by conversation management). -/
structure AgentState where
  messages : List Msg
  connected : Bool
deriving DecidableEq, Repr

/-- Modelled from the spec: `DESTRUCTIVE_TOOLS` is imported from tools.py,
which is not among the reviewed sources. The spec (section 4.2) fixes its
members: deletion of a guest, deletion of a container, forced stop of a
guest, forced stop of a container, restoring a backup, rolling back to a
snapshot, deleting a snapshot, deleting a backup, removing a network
interface; the operation names are those of the description table at
agent.py lines 92-102. -/
def DESTRUCTIVE_TOOLS : List String :=
  ["delete_vm", "delete_container", "stop_vm", "stop_container",
   "restore_backup", "restore_snapshot", "delete_snapshot", "delete_backup",
   "remove_network"]

/-- `Agent._truncate_history` (agent.py lines 77-82): when the history
exceeds `max_context_messages`, keep `self.messages[-max_msgs:]`. Python
slicing note: `lst[-0:]` is the whole list, so `max_msgs = 0` keeps
everything. -/
def truncate_history (maxMsgs : Nat) (msgs : List Msg) : List Msg :=
  if msgs.length > maxMsgs then
    if maxMsgs = 0 then msgs else msgs.drop (msgs.length - maxMsgs)
  else msgs

/-- `Agent._needs_confirmation` (agent.py lines 84-88). -/
def needs_confirmation (cfg : AgentConfig) (toolName : String) : Bool :=
  if cfg.confirmDestructive = false then false
  else decide (toolName ∈ DESTRUCTIVE_TOOLS)

/-- Missing-key rendering: `tool_input.get(key)` interpolated into an
f-string renders the value, or the text None when the key is absent. -/
def pget (input : Params) (key : String) : String :=
  match input.lookup key with
  | some v => v
  | none => "None"

/-- The `descriptions` dict lookup of `_get_confirmation_description`
(agent.py lines 92-104): `descriptions.get(tool_name)` applied to the
input when a description lambda exists for the name. -/
def description_table (toolName : String) (i : Params) : Option String :=
  if toolName = "delete_vm" then
    some ("PERMANENTLY DELETE VM " ++ pget i "vmid" ++ " and all its data")
  else if toolName = "delete_container" then
    some ("PERMANENTLY DELETE container " ++ pget i "vmid" ++ " and all its data")
  else if toolName = "stop_vm" then
    some ("FORCE STOP VM " ++ pget i "vmid" ++ " (may cause data loss)")
  else if toolName = "stop_container" then
    some ("FORCE STOP container " ++ pget i "vmid" ++ " (may cause data loss)")
  else if toolName = "restore_backup" then
    some ("RESTORE backup to VM " ++ pget i "vmid" ++ " (overwrites existing data)")
  else if toolName = "restore_snapshot" then
    some ("ROLLBACK VM " ++ pget i "vmid" ++ " to snapshot \x27" ++ pget i "snapname"
      ++ "\x27 (all changes since snapshot will be lost)")
  else if toolName = "delete_snapshot" then
    some ("DELETE snapshot \x27" ++ pget i "snapname" ++ "\x27 from VM " ++ pget i "vmid")
  else if toolName = "delete_backup" then
    some ("DELETE backup " ++ pget i "archive")
  else if toolName = "remove_network" then
    some ("REMOVE network interface \x27" ++ pget i "iface"
      ++ "\x27 (VMs using it will lose connectivity)")
  else none

/-- The names carrying a specific description entry in the
`descriptions` dict (agent.py lines 92-102). -/
def description_names : List String :=
  ["delete_vm", "delete_container", "stop_vm", "stop_container",
   "restore_backup", "restore_snapshot", "delete_snapshot", "delete_backup",
   "remove_network"]

/-- `Agent._get_confirmation_description` (agent.py lines 90-107). -/
def get_confirmation_description (toolName : String) (i : Params) : String :=
  match description_table toolName i with
  | some d => d
  | none => "Execute destructive operation: " ++ toolName

/-- The serialized denial payload built at agent.py lines 188-191:
`json.dumps(\x7b"success": False, "error": "Operation cancelled by user."\x7d)`. -/
def cancelledContent : String :=
  "\x7b\"success\": false, \"error\": \"Operation cancelled by user.\"\x7d"

/-- The warning logged at agent.py lines 180-182 when a destructive
operation arrives with no confirmation callback set. -/
def noCallbackWarning (toolName : String) : String :=
  "No confirmation callback set. Blocking destructive op: " ++ toolName

/-- The fixed apology returned when the iteration ceiling is exhausted
(agent.py line 207). -/
def limitMessage : String :=
  "I\x27ve reached the maximum number of steps for this request. Please try breaking it into smaller tasks."

/-- One operation-request: (call identifier, operation name, parameters),
the fields read off a tool_use block at agent.py lines 168-170. -/
abbrev Request := String × String × Params

/-- The observable outcome of processing the tool_use blocks of one round
(agent.py lines 165-201): the tool_result list, plus instrumentation:
which requests reached the executor (by position in the round), which
invocations of the confirmation callback were made, and which warnings
were logged. -/
structure RoundOut where
  results : List ToolResult
  dispatches : List (Nat × String × Params)
  cbCalls : List (String × String × Params)
  warnings : List String
deriving DecidableEq, Repr

/-- The decision obtained for a confirmation-requiring request
(agent.py lines 176-182): the callback verbatim if set, else denied. -/
def decision (cb : Option Callback) (toolName desc : String) (input : Params) : Bool :=
  match cb with
  | some f => f toolName desc input
  | none => false

/-- The per-round loop over tool_use blocks (agent.py lines 165-201),
processing requests in order; `k` is the position of the first request
within the round. Denied requests get `cancelledContent` and skip the
executor (`continue`); all others are executed; no failure aborts the
remaining requests. -/
def process_requests (cfg : AgentConfig) (cb : Option Callback) (ex : Exec) :
    List Request → Nat → RoundOut
  | [], _ => ⟨[], [], [], []⟩
  | (tid, toolName, input) :: rest, k =>
    let tail := process_requests cfg cb ex rest (k + 1)
    if needs_confirmation cfg toolName then
      let desc := get_confirmation_description toolName input
      match cb with
      | some f =>
        if f toolName desc input then
          ⟨⟨tid, ex toolName input⟩ :: tail.results,
           (k, toolName, input) :: tail.dispatches,
           (toolName, desc, input) :: tail.cbCalls,
           tail.warnings⟩
        else
          ⟨⟨tid, cancelledContent⟩ :: tail.results,
           tail.dispatches,
           (toolName, desc, input) :: tail.cbCalls,
           tail.warnings⟩
      | none =>
        ⟨⟨tid, cancelledContent⟩ :: tail.results,
         tail.dispatches,
         tail.cbCalls,
         noCallbackWarning toolName :: tail.warnings⟩
    else
      ⟨⟨tid, ex toolName input⟩ :: tail.results,
       (k, toolName, input) :: tail.dispatches,
       tail.cbCalls,
       tail.warnings⟩

/-- The tool_use blocks of a response, in order, with their fields
(`tool_use_blocks` at agent.py line 142). -/
def tool_requests (blocks : List ABlock) : List Request :=
  blocks.filterMap fun b =>
    match b with
    | ABlock.toolUse tid toolName input => some (tid, toolName, input)
    | _ => none

/-- The text contents of a response, in order (`text_blocks` at
agent.py line 143). -/
def text_contents (blocks : List ABlock) : List String :=
  blocks.filterMap fun b =>
    match b with
    | ABlock.text s => some s
    | _ => none

/-- The final answer built at agent.py line 162:
a single-space join of the text blocks in response order. -/
def join_texts (blocks : List ABlock) : String :=
  String.intercalate " " (text_contents blocks)

/-- The observable outcome of `_run_agent_loop`: the returned string, the
final message history, the histories passed to each reasoning-backend
call (in call order), and the terminal response when the loop ended on a
response without tool_use blocks (none when the iteration limit was hit). -/
structure LoopOutcome where
  result : String
  messages : List Msg
  callHistories : List (List Msg)
  terminal : Option (List ABlock)
deriving DecidableEq, Repr

/-- `Agent._run_agent_loop` (agent.py lines 126-207), with the remaining
iteration budget as explicit fuel: each round calls the backend, appends
the assistant turn, returns the joined text if there were no tool_use
blocks, otherwise appends the tool_result turn and continues; fuel 0 is
the exhausted `for` loop falling through to the apology (line 207). -/
def run_agent_loop (cfg : AgentConfig) (cb : Option Callback) (backend : Backend)
    (ex : Exec) : Nat → List Msg → LoopOutcome
  | 0, msgs => ⟨limitMessage, msgs, [], none⟩
  | fuel + 1, msgs =>
    let blocks := backend msgs
    let reqs := tool_requests blocks
    let msgs1 := msgs ++ [Msg.assistant blocks]
    if reqs.isEmpty then
      ⟨join_texts blocks, msgs1, [msgs], some blocks⟩
    else
      let round := process_requests cfg cb ex reqs 0
      let rest := run_agent_loop cfg cb backend ex fuel
        (msgs1 ++ [Msg.toolResults round.results])
      ⟨rest.result, rest.messages, msgs :: rest.callHistories, rest.terminal⟩

/-- `max_iterations` (agent.py line 128). -/
def max_iterations : Nat := 20

/-- `Agent.process_message` (agent.py lines 109-124): append the user turn,
truncate the history, then run the loop. -/
def process_message (cfg : AgentConfig) (cb : Option Callback) (backend : Backend)
    (ex : Exec) (st : AgentState) (userMessage : String) : LoopOutcome :=
  run_agent_loop cfg cb backend ex max_iterations
    (truncate_history cfg.maxContextMessages (st.messages ++ [Msg.user userMessage]))

/-- `Agent.reset_conversation` (agent.py lines 72-75): clears the history,
touches nothing else. -/
def reset_conversation (st : AgentState) : AgentState :=
  { st with messages := [] }

/-- The tool_result blocks of a turn answer the tool_use blocks of an
assistant turn exactly: same call identifiers, in the same order. -/
def ids_match (blocks : List ABlock) (results : List ToolResult) : Bool :=
  decide ((tool_requests blocks).map (fun r => r.1)
    = results.map ToolResult.toolUseId)

/-- Whether a turn is acceptable after the (optional) turn preceding it:
a result-carrying turn must immediately follow the assistant turn whose
operation requests it answers; any other turn is unconstrained. -/
def turn_ok (p : Option Msg) (m : Msg) : Bool :=
  match m with
  | Msg.toolResults rs =>
    match p with
    | some (Msg.assistant bs) => ids_match bs rs
    | _ => false
  | _ => true

/-- Scan a history checking `turn_ok` at every position, `p` being the
turn just before the scanned portion. -/
def ns_aux (p : Option Msg) : List Msg → Bool
  | [] => true
  | m :: rest => turn_ok p m && ns_aux (some m) rest

/-- No result-carrying turn of the history is stranded: each one
immediately follows the assistant turn whose requests it answers. -/
def no_stranded (msgs : List Msg) : Bool :=
  ns_aux none msgs

/-- The last turn of `msgs`, or `p` when `msgs` is empty. -/
def last_opt (p : Option Msg) (msgs : List Msg) : Option Msg :=
  match msgs.getLast? with
  | some m => some m
  | none => p

/-- Concrete agent used for the trimming counterexample: retention limit 3,
confirmation disabled. -/
def exCfg : AgentConfig := ⟨3, false⟩

/-- Concrete scripted backend for the trimming counterexample: on the first
round (history = the single user turn) it requests `list_vms`; afterwards
it answers with plain text. -/
def exBackend : Backend := fun msgs =>
  if msgs.length ≤ 1 then
    [ABlock.text "Listing your VMs", ABlock.toolUse "call_1" "list_vms" []]
  else
    [ABlock.text "Done"]

/-- Concrete executor for the trimming counterexample. -/
def exExec : Exec := fun _ _ => "\x7b\"vms\": []\x7d"

theorem process_requests_cons_exec (cfg : AgentConfig) (cb : Option Callback) (ex : Exec)
    (tid toolName : String) (input : Params) (rest : List Request) (j : Nat)
    (hc : needs_confirmation cfg toolName = false) :
    process_requests cfg cb ex ((tid, toolName, input) :: rest) j =
      ⟨⟨tid, ex toolName input⟩ :: (process_requests cfg cb ex rest (j + 1)).results,
       (j, toolName, input) :: (process_requests cfg cb ex rest (j + 1)).dispatches,
       (process_requests cfg cb ex rest (j + 1)).cbCalls,
       (process_requests cfg cb ex rest (j + 1)).warnings⟩ := by
  simp [process_requests, hc]

theorem process_requests_cons_approved (cfg : AgentConfig) (f : Callback) (ex : Exec)
    (tid toolName : String) (input : Params) (rest : List Request) (j : Nat)
    (hc : needs_confirmation cfg toolName = true)
    (hf : f toolName (get_confirmation_description toolName input) input = true) :
    process_requests cfg (some f) ex ((tid, toolName, input) :: rest) j =
      ⟨⟨tid, ex toolName input⟩ :: (process_requests cfg (some f) ex rest (j + 1)).results,
       (j, toolName, input) :: (process_requests cfg (some f) ex rest (j + 1)).dispatches,
       (toolName, get_confirmation_description toolName input, input)
         :: (process_requests cfg (some f) ex rest (j + 1)).cbCalls,
       (process_requests cfg (some f) ex rest (j + 1)).warnings⟩ := by
  simp [process_requests, hc, hf]

theorem process_requests_cons_den_some (cfg : AgentConfig) (f : Callback) (ex : Exec)
    (tid toolName : String) (input : Params) (rest : List Request) (j : Nat)
    (hc : needs_confirmation cfg toolName = true)
    (hf : f toolName (get_confirmation_description toolName input) input = false) :
    process_requests cfg (some f) ex ((tid, toolName, input) :: rest) j =
      ⟨⟨tid, cancelledContent⟩ :: (process_requests cfg (some f) ex rest (j + 1)).results,
       (process_requests cfg (some f) ex rest (j + 1)).dispatches,
       (toolName, get_confirmation_description toolName input, input)
         :: (process_requests cfg (some f) ex rest (j + 1)).cbCalls,
       (process_requests cfg (some f) ex rest (j + 1)).warnings⟩ := by
  simp [process_requests, hc, hf]

theorem process_requests_cons_den_none (cfg : AgentConfig) (ex : Exec)
    (tid toolName : String) (input : Params) (rest : List Request) (j : Nat)
    (hc : needs_confirmation cfg toolName = true) :
    process_requests cfg none ex ((tid, toolName, input) :: rest) j =
      ⟨⟨tid, cancelledContent⟩ :: (process_requests cfg none ex rest (j + 1)).results,
       (process_requests cfg none ex rest (j + 1)).dispatches,
       (process_requests cfg none ex rest (j + 1)).cbCalls,
       noCallbackWarning toolName :: (process_requests cfg none ex rest (j + 1)).warnings⟩ := by
  simp [process_requests, hc]

theorem process_requests_cons_cases (cfg : AgentConfig) (cb : Option Callback) (ex : Exec)
    (tid toolName : String) (input : Params) (rest : List Request) (j : Nat) :
    (process_requests cfg cb ex ((tid, toolName, input) :: rest) j).results =
        ⟨tid, ex toolName input⟩
          :: (process_requests cfg cb ex rest (j + 1)).results ∨
      (process_requests cfg cb ex ((tid, toolName, input) :: rest) j).results =
        ⟨tid, cancelledContent⟩
          :: (process_requests cfg cb ex rest (j + 1)).results := by
  cases hc : needs_confirmation cfg toolName with
  | false => left; rw [process_requests_cons_exec cfg cb ex tid toolName input rest j hc]
  | true =>
    cases cb with
    | none => right; rw [process_requests_cons_den_none cfg ex tid toolName input rest j hc]
    | some f =>
      cases hf : f toolName (get_confirmation_description toolName input) input with
      | false =>
        right
        rw [process_requests_cons_den_some cfg f ex tid toolName input rest j hc hf]
      | true =>
        left
        rw [process_requests_cons_approved cfg f ex tid toolName input rest j hc hf]

theorem process_requests_dispatch_cases (cfg : AgentConfig) (cb : Option Callback) (ex : Exec)
    (tid toolName : String) (input : Params) (rest : List Request) (j : Nat) :
    (process_requests cfg cb ex ((tid, toolName, input) :: rest) j).dispatches =
        (j, toolName, input)
          :: (process_requests cfg cb ex rest (j + 1)).dispatches ∨
      (process_requests cfg cb ex ((tid, toolName, input) :: rest) j).dispatches =
        (process_requests cfg cb ex rest (j + 1)).dispatches := by
  cases hc : needs_confirmation cfg toolName with
  | false => left; rw [process_requests_cons_exec cfg cb ex tid toolName input rest j hc]
  | true =>
    cases cb with
    | none => right; rw [process_requests_cons_den_none cfg ex tid toolName input rest j hc]
    | some f =>
      cases hf : f toolName (get_confirmation_description toolName input) input with
      | false =>
        right
        rw [process_requests_cons_den_some cfg f ex tid toolName input rest j hc hf]
      | true =>
        left
        rw [process_requests_cons_approved cfg f ex tid toolName input rest j hc hf]

theorem process_requests_ids (cfg : AgentConfig) (cb : Option Callback) (ex : Exec) :
    ∀ (reqs : List Request) (j : Nat),
      (process_requests cfg cb ex reqs j).results.map ToolResult.toolUseId
        = reqs.map (fun r => r.1)
  | [], _ => rfl
  | (tid, toolName, input) :: rest, j => by
    have ih := process_requests_ids cfg cb ex rest (j + 1)
    rcases process_requests_cons_cases cfg cb ex tid toolName input rest j with h | h <;>
      simp [h, ih]

theorem process_requests_dispatch_ge (cfg : AgentConfig) (cb : Option Callback) (ex : Exec) :
    ∀ (reqs : List Request) (j : Nat),
      ∀ d ∈ (process_requests cfg cb ex reqs j).dispatches, j ≤ d.1
  | [], _ => by simp [process_requests]
  | (tid, toolName, input) :: rest, j => by
    have ih := process_requests_dispatch_ge cfg cb ex rest (j + 1)
    rcases process_requests_dispatch_cases cfg cb ex tid toolName input rest j with h | h
    · rw [h]
      intro d hd
      rcases List.mem_cons.mp hd with h1 | h1
      · simp [h1]
      · exact Nat.le_of_succ_le (ih d h1)
    · rw [h]
      intro d hd
      exact Nat.le_of_succ_le (ih d hd)

theorem process_requests_denied (cfg : AgentConfig) (cb : Option Callback) (ex : Exec) :
    ∀ (reqs : List Request) (j k : Nat) (tid toolName : String) (input : Params),
      reqs[k]? = some (tid, toolName, input) →
      needs_confirmation cfg toolName = true →
      decision cb toolName (get_confirmation_description toolName input) input = false →
      (process_requests cfg cb ex reqs j).results[k]? = some ⟨tid, cancelledContent⟩ ∧
      ∀ d ∈ (process_requests cfg cb ex reqs j).dispatches, d.1 ≠ j + k
  | [], j, k, tid, toolName, input => by simp
  | (tid0, name0, input0) :: rest, j, 0, tid, toolName, input => by
    intro hk hc hd
    have he : tid0 = tid ∧ name0 = toolName ∧ input0 = input := by
      simpa using hk
    obtain ⟨h1, h2, h3⟩ := he
    subst h1; subst h2; subst h3
    have hge := process_requests_dispatch_ge cfg cb ex rest (j + 1)
    cases cb with
    | none =>
      rw [process_requests_cons_den_none cfg ex tid0 name0 input0 rest j hc]
      refine ⟨by simp, ?_⟩
      intro d hdm
      have := hge d hdm
      omega
    | some f =>
      have hf : f name0 (get_confirmation_description name0 input0) input0 = false := hd
      rw [process_requests_cons_den_some cfg f ex tid0 name0 input0 rest j hc hf]
      refine ⟨by simp, ?_⟩
      intro d hdm
      have := hge d hdm
      omega
  | (tid0, name0, input0) :: rest, j, k + 1, tid, toolName, input => by
    intro hk hc hd
    have hk' : rest[k]? = some (tid, toolName, input) := by simpa using hk
    have ih := process_requests_denied cfg cb ex rest (j + 1) k tid toolName input hk' hc hd
    have hres : (process_requests cfg cb ex ((tid0, name0, input0) :: rest) j).results[k + 1]?
        = some ⟨tid, cancelledContent⟩ := by
      rcases process_requests_cons_cases cfg cb ex tid0 name0 input0 rest j with h | h <;>
        simp [h, ih.1]
    refine ⟨hres, ?_⟩
    rcases process_requests_dispatch_cases cfg cb ex tid0 name0 input0 rest j with h | h
    · rw [h]
      intro d hdm
      rcases List.mem_cons.mp hdm with h1 | h1
      · simp [h1]
      · have := ih.2 d h1
        omega
    · rw [h]
      intro d hdm
      have := ih.2 d hdm
      omega

theorem process_requests_warning (cfg : AgentConfig) (ex : Exec) :
    ∀ (reqs : List Request) (j k : Nat) (tid toolName : String) (input : Params),
      reqs[k]? = some (tid, toolName, input) →
      needs_confirmation cfg toolName = true →
      noCallbackWarning toolName ∈ (process_requests cfg none ex reqs j).warnings
  | [], j, k, tid, toolName, input => by simp
  | (tid0, name0, input0) :: rest, j, 0, tid, toolName, input => by
    intro hk hc
    have he : tid0 = tid ∧ name0 = toolName ∧ input0 = input := by
      simpa using hk
    obtain ⟨h1, h2, h3⟩ := he
    subst h1; subst h2; subst h3
    rw [process_requests_cons_den_none cfg ex tid0 name0 input0 rest j hc]
    exact List.mem_cons_self _ _
  | (tid0, name0, input0) :: rest, j, k + 1, tid, toolName, input => by
    intro hk hc
    have hk' : rest[k]? = some (tid, toolName, input) := by simpa using hk
    have ih := process_requests_warning cfg ex rest (j + 1) k tid toolName input hk' hc
    cases hc0 : needs_confirmation cfg name0 with
    | false =>
      rw [process_requests_cons_exec cfg none ex tid0 name0 input0 rest j hc0]
      exact ih
    | true =>
      rw [process_requests_cons_den_none cfg ex tid0 name0 input0 rest j hc0]
      exact List.mem_cons_of_mem _ ih

theorem needs_confirmation_off (cfg : AgentConfig) (h : cfg.confirmDestructive = false)
    (toolName : String) : needs_confirmation cfg toolName = false := by
  simp [needs_confirmation, h]

theorem process_requests_cb_nil (cfg : AgentConfig) (cb : Option Callback) (ex : Exec)
    (h : cfg.confirmDestructive = false) :
    ∀ (reqs : List Request) (j : Nat),
      (process_requests cfg cb ex reqs j).cbCalls = []
  | [], _ => rfl
  | (tid, toolName, input) :: rest, j => by
    have ih := process_requests_cb_nil cfg cb ex h rest (j + 1)
    rw [process_requests_cons_exec cfg cb ex tid toolName input rest j
      (needs_confirmation_off cfg h toolName)]
    exact ih

theorem run_agent_loop_zero (cfg : AgentConfig) (cb : Option Callback) (backend : Backend)
    (ex : Exec) (msgs : List Msg) :
    run_agent_loop cfg cb backend ex 0 msgs = ⟨limitMessage, msgs, [], none⟩ := rfl

theorem run_agent_loop_succ_empty (cfg : AgentConfig) (cb : Option Callback) (backend : Backend)
    (ex : Exec) (fuel : Nat) (msgs : List Msg)
    (h : (tool_requests (backend msgs)).isEmpty = true) :
    run_agent_loop cfg cb backend ex (fuel + 1) msgs =
      ⟨join_texts (backend msgs), msgs ++ [Msg.assistant (backend msgs)], [msgs],
       some (backend msgs)⟩ := by
  simp [run_agent_loop, h]

theorem run_agent_loop_succ_tools (cfg : AgentConfig) (cb : Option Callback) (backend : Backend)
    (ex : Exec) (fuel : Nat) (msgs : List Msg)
    (h : (tool_requests (backend msgs)).isEmpty = false) :
    run_agent_loop cfg cb backend ex (fuel + 1) msgs =
      ⟨(run_agent_loop cfg cb backend ex fuel
          ((msgs ++ [Msg.assistant (backend msgs)]) ++
            [Msg.toolResults
              (process_requests cfg cb ex (tool_requests (backend msgs)) 0).results])).result,
       (run_agent_loop cfg cb backend ex fuel
          ((msgs ++ [Msg.assistant (backend msgs)]) ++
            [Msg.toolResults
              (process_requests cfg cb ex (tool_requests (backend msgs)) 0).results])).messages,
       msgs :: (run_agent_loop cfg cb backend ex fuel
          ((msgs ++ [Msg.assistant (backend msgs)]) ++
            [Msg.toolResults
              (process_requests cfg cb ex (tool_requests (backend msgs)) 0).results])).callHistories,
       (run_agent_loop cfg cb backend ex fuel
          ((msgs ++ [Msg.assistant (backend msgs)]) ++
            [Msg.toolResults
              (process_requests cfg cb ex (tool_requests (backend msgs)) 0).results])).terminal⟩ := by
  simp [run_agent_loop, h]

theorem run_loop_calls_le (cfg : AgentConfig) (cb : Option Callback) (backend : Backend)
    (ex : Exec) : ∀ (fuel : Nat) (msgs : List Msg),
      (run_agent_loop cfg cb backend ex fuel msgs).callHistories.length ≤ fuel
  | 0, msgs => by rw [run_agent_loop_zero]; simp
  | fuel + 1, msgs => by
    cases hb : (tool_requests (backend msgs)).isEmpty with
    | true =>
      rw [run_agent_loop_succ_empty cfg cb backend ex fuel msgs hb]
      simp
    | false =>
      rw [run_agent_loop_succ_tools cfg cb backend ex fuel msgs hb]
      have ih := run_loop_calls_le cfg cb backend ex fuel
        ((msgs ++ [Msg.assistant (backend msgs)]) ++
          [Msg.toolResults
            (process_requests cfg cb ex (tool_requests (backend msgs)) 0).results])
      simpa using Nat.succ_le_succ ih

theorem run_loop_limit (cfg : AgentConfig) (cb : Option Callback) (backend : Backend)
    (ex : Exec) (hb : ∀ m, (tool_requests (backend m)).isEmpty = false) :
    ∀ (fuel : Nat) (msgs : List Msg),
      (run_agent_loop cfg cb backend ex fuel msgs).result = limitMessage ∧
      (run_agent_loop cfg cb backend ex fuel msgs).callHistories.length = fuel
  | 0, msgs => by rw [run_agent_loop_zero]; exact ⟨rfl, rfl⟩
  | fuel + 1, msgs => by
    rw [run_agent_loop_succ_tools cfg cb backend ex fuel msgs (hb msgs)]
    have ih := run_loop_limit cfg cb backend ex hb fuel
      ((msgs ++ [Msg.assistant (backend msgs)]) ++
        [Msg.toolResults
          (process_requests cfg cb ex (tool_requests (backend msgs)) 0).results])
    refine ⟨ih.1, ?_⟩
    simpa using ih.2

theorem run_loop_terminal (cfg : AgentConfig) (cb : Option Callback) (backend : Backend)
    (ex : Exec) : ∀ (fuel : Nat) (msgs : List Msg) (bs : List ABlock),
      (run_agent_loop cfg cb backend ex fuel msgs).terminal = some bs →
      (run_agent_loop cfg cb backend ex fuel msgs).result = join_texts bs
  | 0, msgs, bs => by rw [run_agent_loop_zero]; intro ht; cases ht
  | fuel + 1, msgs, bs => by
    cases hb : (tool_requests (backend msgs)).isEmpty with
    | true =>
      rw [run_agent_loop_succ_empty cfg cb backend ex fuel msgs hb]
      intro ht
      have hbs : backend msgs = bs := by simpa using ht
      simp [hbs]
    | false =>
      rw [run_agent_loop_succ_tools cfg cb backend ex fuel msgs hb]
      intro ht
      exact run_loop_terminal cfg cb backend ex fuel _ bs ht

theorem run_loop_head (cfg : AgentConfig) (cb : Option Callback) (backend : Backend)
    (ex : Exec) (fuel : Nat) (msgs : List Msg) :
    (run_agent_loop cfg cb backend ex (fuel + 1) msgs).callHistories.head? = some msgs := by
  cases hb : (tool_requests (backend msgs)).isEmpty with
  | true =>
    rw [run_agent_loop_succ_empty cfg cb backend ex fuel msgs hb]
    rfl
  | false =>
    rw [run_agent_loop_succ_tools cfg cb backend ex fuel msgs hb]
    rfl

theorem truncate_history_singleton (maxMsgs : Nat) (m : Msg) :
    truncate_history maxMsgs [m] = [m] := by
  rcases Nat.eq_zero_or_pos maxMsgs with h | h
  · subst h
    simp [truncate_history]
  · have hng : ¬ ([m].length > maxMsgs) := by
      show ¬ (1 > maxMsgs)
      omega
    simp [truncate_history, hng]
    intro h1 h2
    exact absurd h1 h2

theorem last_opt_cons (p : Option Msg) (x : Msg) (xs : List Msg) :
    last_opt p (x :: xs) = last_opt (some x) xs := by
  cases xs with
  | nil => simp [last_opt]
  | cons y ys =>
    unfold last_opt
    rw [List.getLast?_cons_cons]
    cases hl : (y :: ys).getLast? with
    | some m => rfl
    | none => simp at hl

theorem last_opt_concat (p : Option Msg) (x : Msg) :
    ∀ (xs : List Msg), last_opt p (xs ++ [x]) = some x
  | [] => by simp [last_opt]
  | y :: ys => by
    rw [List.cons_append, last_opt_cons]
    exact last_opt_concat (some y) x ys

theorem ns_aux_append (xs : List Msg) :
    ∀ (p : Option Msg) (ys : List Msg),
      ns_aux p (xs ++ ys) = (ns_aux p xs && ns_aux (last_opt p xs) ys) := by
  induction xs with
  | nil =>
    intro p ys
    simp [ns_aux, last_opt]
  | cons x xs ih =>
    intro p ys
    rw [List.cons_append]
    show (turn_ok p x && ns_aux (some x) (xs ++ ys))
      = ((turn_ok p x && ns_aux (some x) xs) && ns_aux (last_opt p (x :: xs)) ys)
    rw [ih (some x), last_opt_cons, Bool.and_assoc]

theorem no_stranded_append_assistant (msgs : List Msg) (bs : List ABlock)
    (h : no_stranded msgs = true) :
    no_stranded (msgs ++ [Msg.assistant bs]) = true := by
  unfold no_stranded at h ⊢
  rw [ns_aux_append, h]
  simp [ns_aux, turn_ok]

theorem ids_match_round (cfg : AgentConfig) (cb : Option Callback) (ex : Exec)
    (blocks : List ABlock) :
    ids_match blocks (process_requests cfg cb ex (tool_requests blocks) 0).results = true := by
  unfold ids_match
  rw [process_requests_ids cfg cb ex (tool_requests blocks) 0]
  simp

theorem no_stranded_append_round (msgs : List Msg) (bs : List ABlock) (rs : List ToolResult)
    (h : no_stranded msgs = true) (hm : ids_match bs rs = true) :
    no_stranded ((msgs ++ [Msg.assistant bs]) ++ [Msg.toolResults rs]) = true := by
  have h1 := no_stranded_append_assistant msgs bs h
  unfold no_stranded at h1 ⊢
  rw [ns_aux_append, h1, last_opt_concat]
  simp [ns_aux, turn_ok, hm]

theorem run_loop_no_stranded (cfg : AgentConfig) (cb : Option Callback) (backend : Backend)
    (ex : Exec) : ∀ (fuel : Nat) (msgs : List Msg),
      no_stranded msgs = true →
      no_stranded (run_agent_loop cfg cb backend ex fuel msgs).messages = true
  | 0, msgs => by
    intro h
    rw [run_agent_loop_zero]
    exact h
  | fuel + 1, msgs => by
    intro h
    cases hb : (tool_requests (backend msgs)).isEmpty with
    | true =>
      rw [run_agent_loop_succ_empty cfg cb backend ex fuel msgs hb]
      exact no_stranded_append_assistant msgs (backend msgs) h
    | false =>
      rw [run_agent_loop_succ_tools cfg cb backend ex fuel msgs hb]
      exact run_loop_no_stranded cfg cb backend ex fuel _
        (no_stranded_append_round msgs (backend msgs) _ h
          (ids_match_round cfg cb ex (backend msgs)))

/-- C2: for every operation-request in a round that requires confirmation and
whose decision is deny, the executor (Tool Dispatcher) is never invoked for
that request, and the result turn binds, to that request's call identifier,
exactly the failure payload `cancelledContent`
(success false / "Operation cancelled by user."). -/
theorem c2_denied_request (cfg : AgentConfig) (cb : Option Callback) (ex : Exec)
    (reqs : List Request) (k : Nat) (tid toolName : String) (input : Params)
    (hk : reqs[k]? = some (tid, toolName, input))
    (hc : needs_confirmation cfg toolName = true)
    (hd : decision cb toolName (get_confirmation_description toolName input) input = false) :
    (process_requests cfg cb ex reqs 0).results[k]? = some ⟨tid, cancelledContent⟩ ∧
    ∀ d ∈ (process_requests cfg cb ex reqs 0).dispatches, d.1 ≠ k := by
  have h := process_requests_denied cfg cb ex reqs 0 k tid toolName input hk hc hd
  refine ⟨h.1, ?_⟩
  intro d hdm
  have := h.2 d hdm
  omega

/-- C2 witness: a concrete denied delete_vm request is answered by the
cancellation payload and never reaches the executor. -/
theorem c2_denied_request_witness :
    (process_requests ⟨10, true⟩ (some (fun _ _ _ => false)) (fun _ _ => "ok")
        [("toolu_01", "delete_vm", [("vmid", "100")])] 0).results[0]?
      = some ⟨"toolu_01", cancelledContent⟩ ∧
    ∀ d ∈ (process_requests ⟨10, true⟩ (some (fun _ _ _ => false)) (fun _ _ => "ok")
        [("toolu_01", "delete_vm", [("vmid", "100")])] 0).dispatches, d.1 ≠ 0 :=
  c2_denied_request ⟨10, true⟩ (some (fun _ _ _ => false)) (fun _ _ => "ok")
    [("toolu_01", "delete_vm", [("vmid", "100")])] 0 "toolu_01" "delete_vm"
    [("vmid", "100")] (by rfl) (by decide) (by rfl)

/-- C3: with confirmation globally enabled and no decision function
registered, every destructive request is denied fail-closed: the cancellation
payload is bound to its identifier, the executor is not invoked for it, and
the no-callback warning is recorded. -/
theorem c3_fail_closed (cfg : AgentConfig) (ex : Exec) (reqs : List Request)
    (k : Nat) (tid toolName : String) (input : Params)
    (hflag : cfg.confirmDestructive = true)
    (hmem : toolName ∈ DESTRUCTIVE_TOOLS)
    (hk : reqs[k]? = some (tid, toolName, input)) :
    (process_requests cfg none ex reqs 0).results[k]? = some ⟨tid, cancelledContent⟩ ∧
    (∀ d ∈ (process_requests cfg none ex reqs 0).dispatches, d.1 ≠ k) ∧
    noCallbackWarning toolName ∈ (process_requests cfg none ex reqs 0).warnings := by
  have hc : needs_confirmation cfg toolName = true := by
    simp [needs_confirmation, hflag, hmem]
  have h := process_requests_denied cfg none ex reqs 0 k tid toolName input hk hc rfl
  refine ⟨h.1, ?_, process_requests_warning cfg ex reqs 0 k tid toolName input hk hc⟩
  intro d hdm
  have := h.2 d hdm
  omega

/-- C3 witness: a concrete destructive request with no callback registered is
denied, not dispatched, and the warning is recorded. -/
theorem c3_fail_closed_witness :
    (process_requests ⟨10, true⟩ none (fun _ _ => "ok")
        [("toolu_02", "stop_vm", [("vmid", "101")])] 0).results[0]?
      = some ⟨"toolu_02", cancelledContent⟩ ∧
    (∀ d ∈ (process_requests ⟨10, true⟩ none (fun _ _ => "ok")
        [("toolu_02", "stop_vm", [("vmid", "101")])] 0).dispatches, d.1 ≠ 0) ∧
    noCallbackWarning "stop_vm" ∈ (process_requests ⟨10, true⟩ none (fun _ _ => "ok")
        [("toolu_02", "stop_vm", [("vmid", "101")])] 0).warnings :=
  c3_fail_closed ⟨10, true⟩ (fun _ _ => "ok")
    [("toolu_02", "stop_vm", [("vmid", "101")])] 0 "toolu_02" "stop_vm"
    [("vmid", "101")] rfl (by decide) (by rfl)

/-- C4: in every round the result turn carries exactly one operation-result
per operation-request of the immediately preceding assistant turn, bound to
the same identifiers in the same order (denied and executed alike, no request
skipped or aborted); consequently the loop never produces a result-carrying
turn that does not immediately follow the assistant turn it answers. -/
theorem c4_results_aligned (cfg : AgentConfig) (cb : Option Callback) (ex : Exec) :
    (∀ (reqs : List Request) (j : Nat),
      (process_requests cfg cb ex reqs j).results.map ToolResult.toolUseId
        = reqs.map (fun r => r.1)) ∧
    (∀ (backend : Backend) (fuel : Nat) (msgs : List Msg),
      no_stranded msgs = true →
      no_stranded (run_agent_loop cfg cb backend ex fuel msgs).messages = true) :=
  ⟨process_requests_ids cfg cb ex, fun backend fuel msgs h =>
    run_loop_no_stranded cfg cb backend ex fuel msgs h⟩

/-- C4 witness: a concrete mixed round (one executed, one denied request)
yields results bound to the same identifiers in order, and a concrete run
keeps every result turn adjacent to its requesting assistant turn. -/
theorem c4_results_aligned_witness :
    (process_requests ⟨4, true⟩ none (fun _ _ => "ok")
        [("a", "list_vms", []), ("b", "delete_vm", [])] 0).results.map ToolResult.toolUseId
      = ["a", "b"] ∧
    no_stranded (run_agent_loop ⟨4, true⟩ none
        (fun _ => [ABlock.text "done"]) (fun _ _ => "ok") 20 []).messages = true := by
  have h := c4_results_aligned ⟨4, true⟩ none (fun _ _ => "ok")
  constructor
  · have h1 := h.1 [("a", "list_vms", []), ("b", "delete_vm", [])] 0
    simpa using h1
  · exact h.2 (fun _ => [ABlock.text "done"]) 20 [] rfl

/-- C6: with the global confirmation flag disabled no operation ever requires
confirmation and the decision function is never invoked; with the flag
enabled, confirmation is required exactly for the names of the fixed
destructive set. -/
theorem c6_confirmation_flag (cfg : AgentConfig) (toolName : String) :
    (cfg.confirmDestructive = false →
      needs_confirmation cfg toolName = false ∧
      ∀ (cb : Option Callback) (ex : Exec) (reqs : List Request) (j : Nat),
        (process_requests cfg cb ex reqs j).cbCalls = []) ∧
    (cfg.confirmDestructive = true →
      (needs_confirmation cfg toolName = true ↔ toolName ∈ DESTRUCTIVE_TOOLS)) := by
  constructor
  · intro h
    exact ⟨needs_confirmation_off cfg h toolName,
      fun cb ex reqs j => process_requests_cb_nil cfg cb ex h reqs j⟩
  · intro h
    simp [needs_confirmation, h]

/-- C6 witness: with the flag off, a destructive request triggers no
confirmation and no callback invocation; with the flag on, delete_vm requires
confirmation exactly because it is in the destructive set. -/
theorem c6_confirmation_flag_witness :
    (needs_confirmation ⟨4, false⟩ "delete_vm" = false ∧
      (process_requests ⟨4, false⟩ (some (fun _ _ _ => true)) (fun _ _ => "ok")
        [("a", "delete_vm", [])] 0).cbCalls = []) ∧
    (needs_confirmation ⟨4, true⟩ "delete_vm" = true ↔ "delete_vm" ∈ DESTRUCTIVE_TOOLS) := by
  have h1 := (c6_confirmation_flag ⟨4, false⟩ "delete_vm").1 rfl
  have h2 := (c6_confirmation_flag ⟨4, true⟩ "delete_vm").2 rfl
  exact ⟨⟨h1.1, h1.2 (some (fun _ _ _ => true)) (fun _ _ => "ok") [("a", "delete_vm", [])] 0⟩, h2⟩

/-- C8: the destructive-operation description function is total: for any name
and any parameter mapping it returns a string and never fails, a missing
expected key rendering as the None placeholder, and a name with no specific
description entry getting the generic message. -/
theorem c8_description_total (toolName : String) (input : Params) :
    (toolName ∉ description_names →
      get_confirmation_description toolName input
        = "Execute destructive operation: " ++ toolName) ∧
    (input.lookup "vmid" = none →
      get_confirmation_description "delete_vm" input
        = "PERMANENTLY DELETE VM None and all its data") := by
  constructor
  · intro h
    simp only [description_names, List.mem_cons, List.mem_singleton] at h
    push_neg at h
    obtain ⟨h1, h2, h3, h4, h5, h6, h7, h8, h9⟩ := h
    simp [get_confirmation_description, description_table, h1, h2, h3, h4, h5, h6, h7, h8, h9]
  · intro h
    have hp : pget input "vmid" = "None" := by simp [pget, h]
    simp [get_confirmation_description, description_table, hp]

/-- C8 witness: an unrecognized name gets the generic message and a
delete_vm request with an empty parameter mapping renders the None
placeholder instead of failing. -/
theorem c8_description_total_witness :
    get_confirmation_description "create_vm" []
      = "Execute destructive operation: " ++ "create_vm" ∧
    get_confirmation_description "delete_vm" []
      = "PERMANENTLY DELETE VM None and all its data" := by
  have h := c8_description_total "create_vm" []
  have h2 := c8_description_total "delete_vm" []
  exact ⟨h.1 (by decide), h2.2 rfl⟩

/-- C5: process_message performs at most 20 reasoning rounds and returns;
if every backend response keeps requesting operations, the loop runs exactly
20 rounds and returns the fixed limit-reached apology as a normal value. -/
theorem c5_iteration_ceiling (cfg : AgentConfig) (cb : Option Callback)
    (backend : Backend) (ex : Exec) (st : AgentState) (m : String) :
    (process_message cfg cb backend ex st m).callHistories.length ≤ 20 ∧
    ((∀ h, (tool_requests (backend h)).isEmpty = false) →
      (process_message cfg cb backend ex st m).result = limitMessage ∧
      (process_message cfg cb backend ex st m).callHistories.length = 20) := by
  unfold process_message max_iterations
  refine ⟨run_loop_calls_le cfg cb backend ex 20 _, ?_⟩
  intro hb
  exact run_loop_limit cfg cb backend ex hb 20 _

/-- C5 witness: a backend that always requests an operation drives a concrete
process_message call into the limit-reached apology. -/
theorem c5_iteration_ceiling_witness :
    (process_message ⟨4, false⟩ none (fun _ => [ABlock.toolUse "c" "get_status" []])
        (fun _ _ => "ok") ⟨[], true⟩ "loop").result = limitMessage :=
  ((c5_iteration_ceiling ⟨4, false⟩ none (fun _ => [ABlock.toolUse "c" "get_status" []])
      (fun _ _ => "ok") ⟨[], true⟩ "loop").2 (fun _ => rfl)).1

/-- C7: when the backend's response to the trimmed history contains no
operation-request blocks, the loop terminates in that round with exactly one
backend call, returning the text blocks joined by a single space in response
order. -/
theorem c7_text_terminal (cfg : AgentConfig) (cb : Option Callback)
    (backend : Backend) (ex : Exec) (st : AgentState) (m : String)
    (h : (tool_requests (backend
        (truncate_history cfg.maxContextMessages
          (st.messages ++ [Msg.user m])))).isEmpty = true) :
    (process_message cfg cb backend ex st m).result
      = String.intercalate " " (text_contents (backend
          (truncate_history cfg.maxContextMessages (st.messages ++ [Msg.user m])))) ∧
    (process_message cfg cb backend ex st m).callHistories.length = 1 := by
  unfold process_message max_iterations
  have h20 : (20 : Nat) = 19 + 1 := rfl
  rw [h20, run_agent_loop_succ_empty cfg cb backend ex 19 _ h]
  exact ⟨rfl, rfl⟩

/-- C7 witness: a concrete text-only first response terminates the loop
immediately, returning that text after exactly one backend call. -/
theorem c7_text_terminal_witness :
    (process_message ⟨4, true⟩ none (fun _ => [ABlock.text "Here are your VMs: 100, 101"])
        (fun _ _ => "ok") ⟨[], true⟩ "list vms").result = "Here are your VMs: 100, 101" ∧
    (process_message ⟨4, true⟩ none (fun _ => [ABlock.text "Here are your VMs: 100, 101"])
        (fun _ _ => "ok") ⟨[], true⟩ "list vms").callHistories.length = 1 := by
  have h := c7_text_terminal ⟨4, true⟩ none
    (fun _ => [ABlock.text "Here are your VMs: 100, 101"])
    (fun _ _ => "ok") ⟨[], true⟩ "list vms" (by rfl)
  refine ⟨?_, h.2⟩
  rw [h.1]
  rfl

/-- C9: reset_conversation clears all turns and leaves the backend connection
flag untouched; a process_message immediately after it reaches the first
reasoning-backend call with a history of exactly one user turn. -/
theorem c9_reset (cfg : AgentConfig) (cb : Option Callback) (backend : Backend)
    (ex : Exec) (st : AgentState) (m : String) :
    (reset_conversation st).messages = [] ∧
    (reset_conversation st).connected = st.connected ∧
    (process_message cfg cb backend ex (reset_conversation st) m).callHistories.head?
      = some [Msg.user m] := by
  refine ⟨rfl, rfl, ?_⟩
  show (run_agent_loop cfg cb backend ex max_iterations
    (truncate_history cfg.maxContextMessages ([] ++ [Msg.user m]))).callHistories.head?
      = some [Msg.user m]
  rw [List.nil_append, truncate_history_singleton]
  exact run_loop_head cfg cb backend ex 19 [Msg.user m]

/-- C10: the returned answer is built solely from the text blocks of the
terminal operation-request-free response, joined by single spaces, so text
emitted in earlier tool-requesting rounds never enters it; a terminal
response without text blocks yields the empty string. -/
theorem c10_terminal_only (cfg : AgentConfig) (cb : Option Callback)
    (backend : Backend) (ex : Exec) (st : AgentState) (m : String) (bs : List ABlock)
    (h : (process_message cfg cb backend ex st m).terminal = some bs) :
    (process_message cfg cb backend ex st m).result
      = String.intercalate " " (text_contents bs) ∧
    (text_contents bs = [] →
      (process_message cfg cb backend ex st m).result = "") := by
  unfold process_message at h ⊢
  have h1 := run_loop_terminal cfg cb backend ex max_iterations _ bs h
  refine ⟨h1, ?_⟩
  intro he
  rw [h1]
  show String.intercalate " " (text_contents bs) = ""
  rw [he]
  rfl

/-- C10 witness: in a run whose first round emits text alongside a tool
request and whose second round is text-only, the returned answer is exactly
the terminal round's text, excluding the earlier round's text. -/
theorem c10_terminal_only_witness :
    (process_message exCfg none exBackend exExec ⟨[], true⟩ "list my vms").result
      = "Done" := by
  have h := c10_terminal_only exCfg none exBackend exExec ⟨[], true⟩ "list my vms"
    [ABlock.text "Done"] (by decide)
  rw [h.1]
  rfl

/-- C1 counterexample: with retention limit 3, the trim at the start of the
next process_message call cuts a code-produced history between an assistant
turn and its result turn, leaving a retained result-carrying turn without
the assistant turn whose operation-request blocks it answers. -/
theorem c1_trim_strands :
    no_stranded (truncate_history 3
      ((process_message exCfg none exBackend exExec ⟨[], true⟩ "list my vms").messages
        ++ [Msg.user "thanks"])) = false := by
  decide

/-- C1 (amended): trimming removes whole turns from the oldest end only —
the trimmed history is a suffix of the pre-trim history and, for a positive
limit, has length min(limit, original length) — but it does not guarantee
that a retained result-carrying turn keeps its requesting assistant turn. -/
theorem c1_trim_suffix (maxMsgs : Nat) (msgs : List Msg) :
    truncate_history maxMsgs msgs <:+ msgs ∧
    (0 < maxMsgs →
      (truncate_history maxMsgs msgs).length = min maxMsgs msgs.length) := by
  unfold truncate_history
  by_cases hlen : msgs.length > maxMsgs
  · rw [if_pos hlen]
    by_cases h0 : maxMsgs = 0
    · rw [if_pos h0]
      refine ⟨List.suffix_refl msgs, ?_⟩
      intro hpos
      omega
    · rw [if_neg h0]
      refine ⟨⟨msgs.take (msgs.length - maxMsgs), List.take_append_drop _ _⟩, ?_⟩
      intro hpos
      rw [List.length_drop]
      omega
  · rw [if_neg hlen]
    refine ⟨List.suffix_refl msgs, ?_⟩
    intro hpos
    omega

/-- C1 witness: trimming a concrete 3-turn history to 2 turns keeps the most
recent 2 turns as a suffix. -/
theorem c1_trim_suffix_witness :
    truncate_history 2 [Msg.user "a", Msg.user "b", Msg.user "c"]
        <:+ [Msg.user "a", Msg.user "b", Msg.user "c"] ∧
    (truncate_history 2 [Msg.user "a", Msg.user "b", Msg.user "c"]).length
      = min 2 ([Msg.user "a", Msg.user "b", Msg.user "c"]).length := by
  have h := c1_trim_suffix 2 [Msg.user "a", Msg.user "b", Msg.user "c"]
  exact ⟨h.1, h.2 (by decide)⟩

end PiSysadmin
